import Mathlib

/-!
Verification development for the SuperBoL supernova bolometric light-curve
pipeline (`superbol/sn.py`).

The numeric pipeline of the `SN` class is shallowly embedded here.  Real-valued
quantities (Julian dates, magnitudes, fluxes, wavelengths, distances) are
modelled as rationals `ℚ`.  The modules imported by `sn.py` but external to it
(`mag2flux`, `fbol`, `fit_blackbody`, `luminosity`, `zip_photometry`, the
`specutils` reddening law, and the `numpy` primitives `np.pi` / `np.sqrt`) are
represented as fields of an `ExtMod` parameter record, except where a claim is
decided by their behaviour, in which case they are modelled from the spec
(see `calc_Lbol`).  String-valued filter names are modelled with a single
string type (identifying the Python byte strings `b"U"` with `"U"`), and
`numpy` array comparison against `None` follows numpy's elementwise
broadcasting semantics (see `noneCheckTruthy`).
-/

/-- Row of the global filter reference table (`h5file.root.filters`). -/
structure FilterRow where
  filter_id : Int
  name : String
  eff_wl : ℚ
  flux_zeropoint : ℚ
deriving DecidableEq, Repr

/-- Row of the per-object photometry table (`sn_node.phot`). -/
structure PhotRow where
  jd : ℚ
  filter_id : Int
  magnitude : ℚ
  uncertainty : ℚ
deriving DecidableEq, Repr

/-- Row of the array built by `SN.get_photometry`:
`[jd, name, id, magnitude, uncertainty]`. -/
structure PhotObs where
  jd : ℚ
  name : String
  id : Int
  magnitude : ℚ
  uncertainty : ℚ
deriving DecidableEq, Repr

/-- Row of the array built by `SN.convert_magnitudes_to_fluxes`:
`[jd, name, wavelength, flux, uncertainty]`. -/
structure FluxObs where
  jd : ℚ
  name : String
  wavelength : ℚ
  flux : ℚ
  uncertainty : ℚ
deriving DecidableEq, Repr

/-- One output light-curve row: `(jd, phase, phase_err, lbol, lbol_err)`. -/
structure Point where
  jd : ℚ
  phase : ℚ
  phase_err : ℚ
  lbol : ℚ
  lbol_err : ℚ
deriving DecidableEq, Repr

/-- The per-object parameter table (`sn_node.parameters`) together with the
instance attribute `min_num_obs` (set to `4` in `SN.__init__`). -/
structure Params where
  explosion_JD : ℚ
  explosion_JD_err : ℚ
  Av_gal : ℚ
  Av_host : ℚ
  distance_Mpc : ℚ
  distance_Mpc_err : ℚ
  min_num_obs : Nat
deriving DecidableEq, Repr

/-- The two tables read from the HDF5 file. -/
structure Tables where
  filters : List FilterRow
  phot : List PhotRow
deriving DecidableEq, Repr

/-- The external modules imported by `sn.py` but defined outside it, plus the
`numpy` primitives.  `sn.py` only calls these functions; their numerics are
not part of this file's source, so they are kept as parameters. -/
structure ExtMod where
  pi : ℚ
  sqrt : ℚ → ℚ
  zip_photometry : List PhotObs → List PhotObs
  mag2flux : ℚ → ℚ → ℚ → ℚ → ℚ × ℚ
  reddening : ℚ → ℚ → ℚ
  fqbol_trapezoidal : List ℚ → List ℚ → List ℚ → ℚ × ℚ
  bb_fit_parameters : List ℚ → List ℚ → List ℚ → Except String (ℚ × ℚ × ℚ × ℚ)
  bb_flux_nounits : ℚ → ℚ → ℚ → ℚ
  ir_correction : ℚ → ℚ → ℚ → ℚ → ℚ → ℚ × ℚ
  uv_correction_linear : ℚ → ℚ → ℚ → ℚ × ℚ
  uv_correction_blackbody : ℚ → ℚ → ℚ → ℚ → ℚ → ℚ × ℚ
  calc_Lbol_core : Option ℚ → Option ℚ → String → List ℚ → List ℚ → ℚ → ℚ → ℚ × ℚ

/-- Outcome of one top-level call: the returned value (or propagated
exception), whether `h5file.close()` was reached, and the state of the
`self.photometry` instance attribute after the call. -/
structure CallOut where
  result : Except String (List Point)
  h5_closed : Bool
  photometry : Option (List PhotObs)

/-- The constant `mpc_to_cm = 3.08567758E24` from `SN.get_distance_cm`. -/
def mpc_to_cm : ℚ := 3.08567758e24

/-- Minimum of a list of rationals (`np.amin` / Python `min`); `none` on an
empty list, where numpy and Python raise. -/
def pyMin : List ℚ → Option ℚ
  | [] => none
  | a :: t =>
    some (match pyMin t with
          | none => a
          | some m => min a m)

/-- Maximum of a list of rationals (`np.amax`); `none` on an empty list. -/
def pyMax : List ℚ → Option ℚ
  | [] => none
  | a :: t =>
    some (match pyMax t with
          | none => a
          | some m => max a m)

/-- Collapse adjacent duplicates of a list; on a `≤`-sorted list this yields
the sorted list of distinct values. -/
def collapse : List ℚ → List ℚ
  | [] => []
  | [a] => [a]
  | a :: b :: t => if a = b then collapse (b :: t) else a :: collapse (b :: t)

/-- The sorted list of unique values, as computed by `np.unique`. -/
def npUnique (l : List ℚ) : List ℚ := collapse (l.insertionSort (· ≤ ·))

/-- Wavelength comparison used when `np.argsort(wavelengths)` reorders the
per-epoch arrays. -/
def wlLE (a b : FluxObs) : Prop := a.wavelength ≤ b.wavelength

instance : DecidableRel wlLE := fun a b =>
  inferInstanceAs (Decidable (a.wavelength ≤ b.wavelength))

instance : IsTotal FluxObs wlLE := ⟨fun a b => le_total a.wavelength b.wavelength⟩

instance : IsTrans FluxObs wlLE := ⟨fun _ _ _ h h' => le_trans h h'⟩

/-- Reordering of per-epoch observations by ascending wavelength, as done by
`np.argsort(wavelengths)` followed by fancy indexing of each array. -/
def sortWl (l : List FluxObs) : List FluxObs := l.insertionSort wlLE

/-- Embedding of `SN.get_photometry`: join each photometry row with every
filter row of matching `filter_id`. -/
def get_photometry (t : Tables) : List PhotObs :=
  t.phot.flatMap fun obs =>
    (t.filters.filter fun filt => decide (filt.filter_id = obs.filter_id)).map
      fun filt => ⟨obs.jd, filt.name, filt.filter_id, obs.magnitude, obs.uncertainty⟩

/-- Embedding of `SN.convert_magnitudes_to_fluxes`: join by filter id, convert
with `mag2flux`, and keep only points with effective wavelength in
`[909.09, 33333.33]` Å. -/
def convert_magnitudes_to_fluxes (ext : ExtMod) (filters : List FilterRow)
    (photometry : List PhotObs) : List FluxObs :=
  photometry.flatMap fun obs =>
    (filters.filter fun filt => decide (filt.filter_id = obs.id)).flatMap fun filt =>
      let fl := ext.mag2flux obs.magnitude obs.uncertainty filt.eff_wl filt.flux_zeropoint
      if (909.09 : ℚ) ≤ filt.eff_wl ∧ filt.eff_wl ≤ (33333.33 : ℚ) then
        [⟨obs.jd, filt.name, filt.eff_wl, fl.1, fl.2⟩]
      else []

/-- Embedding of `SN.deredden_fluxes`: multiply each flux by the CCM89
reddening factor at its wavelength, with `Av_tot = Av_gal + Av_host`. -/
def deredden_fluxes (ext : ExtMod) (p : Params) (converted_obs : List FluxObs) :
    List FluxObs :=
  converted_obs.map fun obs =>
    { obs with flux := obs.flux * ext.reddening obs.wavelength (p.Av_gal + p.Av_host) }

/-- The observation list shared by `lbol_direct_bh09` and `lqbol` after
zipping, magnitude-to-flux conversion and flux dereddening.  In the source,
`deredden_fluxes` mutates `converted_obs` in place and returns it, so
`converted_obs` and `dereddened_obs` alias one and the same array; this
definition is that array's final contents. -/
def pipelineObs (ext : ExtMod) (p : Params) (filters : List FilterRow)
    (phot : List PhotObs) : List FluxObs :=
  deredden_fluxes ext p (convert_magnitudes_to_fluxes ext filters (ext.zip_photometry phot))

/-- Embedding of `SN.get_distance_cm`. -/
def get_distance_cm (p : Params) : ℚ × ℚ :=
  (p.distance_Mpc * mpc_to_cm, p.distance_Mpc_err * mpc_to_cm)

/-- Embedding of `SN.get_lbol_epochs`: the unique epochs carrying at least
`min_number_obs` observations (all observations counted, `z` included). -/
def get_lbol_epochs (converted_obs : List FluxObs) (min_number_obs : Nat) : List ℚ :=
  (npUnique (converted_obs.map (·.jd))).filter fun jd =>
    decide (min_number_obs ≤ (converted_obs.filter fun o => decide (o.jd = jd)).length)

/-- The CCM89 Table 3 coefficient dictionary of `SN.deredden_UBVRI_magnitudes`. -/
def ccm89_corr (name : String) : Option ℚ :=
  if name = "U" then some 1.569
  else if name = "B" then some 1.337
  else if name = "V" then some 1.0
  else if name = "R" then some 0.751
  else if name = "I" then some 0.479
  else none

/-- Embedding of `SN.deredden_UBVRI_magnitudes`: subtract
`coefficient * (Av_gal + Av_host)` from the magnitude of every observation
whose name is a key of `ccm89_corr`; all other observations are unchanged. -/
def deredden_UBVRI_magnitudes (p : Params) (photometry : List PhotObs) : List PhotObs :=
  photometry.map fun obs =>
    match ccm89_corr obs.name with
    | some c => { obs with magnitude := obs.magnitude - c * (p.Av_gal + p.Av_host) }
    | none => obs

/-- Embedding of `SN.get_bc_epochs`: unique epochs at which both filters were
observed.  The source tests the second filter with `elif`, so an observation
matching `filter1` is never also counted for `filter2`. -/
def get_bc_epochs (photometry : List PhotObs) (filter1 filter2 : String) : List ℚ :=
  (npUnique (photometry.map (·.jd))).filter fun jd =>
    (photometry.any fun o => decide (o.jd = jd ∧ o.name = filter1)) &&
    (photometry.any fun o => decide (o.jd = jd ∧ ¬o.name = filter1 ∧ o.name = filter2))

/-- Embedding of `SN.get_color`: the loop keeps the last matching magnitude
for each filter (the `elif` shields observations matching `filter1` from the
`filter2` test); returns `none` if either magnitude was never set. -/
def get_color (photometry : List PhotObs) (jd : ℚ) (filter1 filter2 : String) :
    Option ℚ :=
  let f1_mag := ((photometry.filter fun x => decide (x.jd = jd ∧ x.name = filter1)).map
    (·.magnitude)).getLast?
  let f2_mag := ((photometry.filter fun x =>
    decide (x.jd = jd ∧ ¬x.name = filter1 ∧ x.name = filter2)).map (·.magnitude)).getLast?
  match f1_mag, f2_mag with
  | some m1, some m2 => some (m1 - m2)
  | _, _ => none

/-- Embedding of `SN.get_color_uncertainty`: quadrature sum of the last
matching uncertainties, via `np.sqrt`. -/
def get_color_uncertainty (ext : ExtMod) (photometry : List PhotObs) (jd : ℚ)
    (filter1 filter2 : String) : Option ℚ :=
  let f1_err := ((photometry.filter fun x => decide (x.jd = jd ∧ x.name = filter1)).map
    (·.uncertainty)).getLast?
  let f2_err := ((photometry.filter fun x =>
    decide (x.jd = jd ∧ ¬x.name = filter1 ∧ x.name = filter2)).map (·.uncertainty)).getLast?
  match f1_err, f2_err with
  | some e1, some e2 => some (ext.sqrt (e1 ^ 2 + e2 ^ 2))
  | _, _ => none

/-- Truthiness of the Python expression `self.photometry == None`.  Under
numpy's broadcasting `==`, comparing a structured array against `None` yields
an elementwise all-`False` array: its truth value is `False` for at most one
row and raises `ValueError` for two or more rows; comparing `None` itself
yields `True`. -/
def noneCheckTruthy : Option (List PhotObs) → Except String Bool
  | none => .ok true
  | some [] => .ok false
  | some [_] => .ok false
  | some (_ :: _ :: _) =>
    .error "ValueError: The truth value of an array with more than one element is ambiguous."

/-- The contents of `self.photometry` after the `already loaded` check: loaded
from the tables when the check was truthy, otherwise the cached value. -/
def loadedPhot (t : Tables) (cache : Option (List PhotObs)) (b : Bool) :
    List PhotObs :=
  if b then get_photometry t else cache.getD []

/-- The per-epoch observations used by `lbol_direct_bh09` (line order as in
`converted_obs`): every observation at `jd` whose filter name is not `z`. -/
def nonZAt (dobs : List FluxObs) (jd : ℚ) : List FluxObs :=
  dobs.filter fun o => decide (o.jd = jd ∧ ¬o.name = "z")

/-- The per-epoch observations used by `lqbol` (no `z` exclusion). -/
def lqAt (dobs : List FluxObs) (jd : ℚ) : List FluxObs :=
  dobs.filter fun o => decide (o.jd = jd)

/-- The `names` array of `lbol_direct_bh09`.  In the source only
`wavelengths`, `fluxes` and `flux_errs` are reindexed by
`np.argsort(wavelengths)`; `names` keeps the original order. -/
def directNames (dobs : List FluxObs) (jd : ℚ) : List String :=
  (nonZAt dobs jd).map (·.name)

/-- The sorted `wavelengths` array of `lbol_direct_bh09` at epoch `jd`. -/
def directWls (dobs : List FluxObs) (jd : ℚ) : List ℚ :=
  (sortWl (nonZAt dobs jd)).map (·.wavelength)

/-- The sorted `fluxes` array of `lbol_direct_bh09` at epoch `jd`. -/
def directFls (dobs : List FluxObs) (jd : ℚ) : List ℚ :=
  (sortWl (nonZAt dobs jd)).map (·.flux)

/-- The sorted `flux_errs` array of `lbol_direct_bh09` at epoch `jd`. -/
def directFes (dobs : List FluxObs) (jd : ℚ) : List ℚ :=
  (sortWl (nonZAt dobs jd)).map (·.uncertainty)

/-- The sorted `wavelengths` array of `lqbol` at epoch `jd`. -/
def lqbolWls (dobs : List FluxObs) (jd : ℚ) : List ℚ :=
  (sortWl (lqAt dobs jd)).map (·.wavelength)

/-- The sorted `fluxes` array of `lqbol` at epoch `jd`. -/
def lqbolFls (dobs : List FluxObs) (jd : ℚ) : List ℚ :=
  (sortWl (lqAt dobs jd)).map (·.flux)

/-- The sorted `flux_errs` array of `lqbol` at epoch `jd`. -/
def lqbolFes (dobs : List FluxObs) (jd : ℚ) : List ℚ :=
  (sortWl (lqAt dobs jd)).map (·.uncertainty)

/-- Index of the first occurrence of `s`, as computed by
`np.nonzero(names == s)[0][0]` (meaningful only when `s` occurs). -/
def npFirstIndex (s : String) : List String → Nat
  | [] => 0
  | n :: t => if n = s then 0 else npFirstIndex s t + 1

/-- The UV-policy test of `lbol_direct_bh09`: `'U' in names`, and if so the
comparison `fluxes[idx] < bb_flux_nounits(wavelengths[idx], T, R)` where
`idx = np.nonzero(names == 'U')[0][0]` indexes the unsorted `names` array
while `fluxes` and `wavelengths` are the argsorted arrays. -/
def uvUsesLinear (ext : ExtMod) (names : List String) (wavelengths fluxes : List ℚ)
    (temperature angular_radius : ℚ) : Bool :=
  if "U" ∈ names then
    let idx := npFirstIndex "U" names
    let U_flux := fluxes.getD idx 0
    let U_wl := wavelengths.getD idx 0
    decide (U_flux < ext.bb_flux_nounits U_wl temperature angular_radius)
  else false

/-- The body of the epoch loop of `lbol_direct_bh09`: trapezoidal integral,
blackbody fit (whose failure propagates), IR correction, the UV correction
selected by `uvUsesLinear`, and the luminosity assembly.  The linear UV path
receives `np.amin(fluxes)` and `np.amin(flux_errs)` exactly as the source
does. -/
def processEpochDirect (ext : ExtMod) (p : Params) (d derr : ℚ)
    (dobs : List FluxObs) (jd : ℚ) : Except String Point := do
  let names := directNames dobs jd
  let wavelengths := directWls dobs jd
  let fluxes := directFls dobs jd
  let flux_errs := directFes dobs jd
  let fqr := ext.fqbol_trapezoidal wavelengths fluxes flux_errs
  let (temperature, angular_radius, temperature_err, angular_radius_err) ←
    ext.bb_fit_parameters wavelengths fluxes flux_errs
  match pyMin wavelengths, pyMin fluxes, pyMin flux_errs, pyMax wavelengths with
  | some shortest_wl, some shortest_flux, some shortest_flux_err, some longest_wl =>
    let irr := ext.ir_correction temperature temperature_err angular_radius
      angular_radius_err longest_wl
    let uvr :=
      if uvUsesLinear ext names wavelengths fluxes temperature angular_radius then
        ext.uv_correction_linear shortest_wl shortest_flux shortest_flux_err
      else
        ext.uv_correction_blackbody temperature temperature_err angular_radius
          angular_radius_err shortest_wl
    let fbol := fqr.1 + irr.1 + uvr.1
    let fbol_err := ext.sqrt (fqr.2 * fqr.2 + irr.2 * irr.2 + uvr.2 * uvr.2)
    let lum := fbol * 4 * ext.pi * d ^ 2
    let lum_err := ext.sqrt ((4 * ext.pi * d ^ 2 * fbol_err) ^ 2
      + (8 * ext.pi * fbol * d * derr) ^ 2)
    pure ⟨jd, jd - p.explosion_JD, p.explosion_JD_err, lum, lum_err⟩
  | _, _, _, _ => .error "ValueError: zero-size array reduction"

/-- The epoch loop of `lbol_direct_bh09`: the first exception raised by an
epoch propagates and aborts the whole loop. -/
def directLoop (ext : ExtMod) (p : Params) (d derr : ℚ) (dobs : List FluxObs) :
    List ℚ → Except String (List Point)
  | [] => .ok []
  | jd :: rest => do
    let pt ← processEpochDirect ext p d derr dobs jd
    let pts ← directLoop ext p d derr dobs rest
    pure (pt :: pts)

/-- The computation of `SN.lbol_direct_bh09` between the `already loaded`
check and `h5file.close()`. -/
def lbol_direct_main (ext : ExtMod) (p : Params) (filters : List FilterRow)
    (phot : List PhotObs) : Except String (List Point) :=
  let dobs := pipelineObs ext p filters phot
  let lbol_epochs := get_lbol_epochs dobs p.min_num_obs
  let dist := get_distance_cm p
  directLoop ext p dist.1 dist.2 dobs lbol_epochs

/-- Full embedding of `SN.lbol_direct_bh09`: open the HDF5 file, run the
`self.photometry == None` check (whose `ValueError` propagates), load or reuse
the photometry, compute, and reach `h5file.close()` only when no exception was
raised. -/
def lbol_direct_bh09 (ext : ExtMod) (t : Tables) (p : Params)
    (cache : Option (List PhotObs)) : CallOut :=
  match noneCheckTruthy cache with
  | .error e => { result := .error e, h5_closed := false, photometry := cache }
  | .ok b =>
    let phot := loadedPhot t cache b
    match lbol_direct_main ext p t.filters phot with
    | .ok lc => { result := .ok lc, h5_closed := true, photometry := some phot }
    | .error e => { result := .error e, h5_closed := false, photometry := some phot }

/-- The quasi-bolometric retention test of `lqbol`:
`min(wavelengths) < 10000.0` (the quick fix excluding IR-only nights).  The
`none` branch is unreachable for epochs produced by `get_lbol_epochs`. -/
def lqbolKeep (dobs : List FluxObs) (jd : ℚ) : Bool :=
  match pyMin (lqbolWls dobs jd) with
  | some m => decide (m < 10000)
  | none => false

/-- The light-curve row appended by `lqbol` for a retained epoch. -/
def lqbolPointAt (ext : ExtMod) (p : Params) (d derr : ℚ) (dobs : List FluxObs)
    (jd : ℚ) : Point :=
  let fqr := ext.fqbol_trapezoidal (lqbolWls dobs jd) (lqbolFls dobs jd) (lqbolFes dobs jd)
  let lq := fqr.1 * 4 * ext.pi * d ^ 2
  let lq_err := ext.sqrt ((4 * ext.pi * d ^ 2 * fqr.2) ^ 2
    + (8 * ext.pi * fqr.1 * d * derr) ^ 2)
  ⟨jd, jd - p.explosion_JD, p.explosion_JD_err, lq, lq_err⟩

/-- The epoch loop of `lqbol`. -/
def lqbolLoop (ext : ExtMod) (p : Params) (d derr : ℚ) (dobs : List FluxObs) :
    List ℚ → List Point
  | [] => []
  | jd :: rest =>
    (if lqbolKeep dobs jd then [lqbolPointAt ext p d derr dobs jd] else [])
      ++ lqbolLoop ext p d derr dobs rest

/-- The computation of `SN.lqbol` between the `already loaded` check and
`h5file.close()`. -/
def lqbol_main (ext : ExtMod) (p : Params) (filters : List FilterRow)
    (phot : List PhotObs) : List Point :=
  let dobs := pipelineObs ext p filters phot
  let lbol_epochs := get_lbol_epochs dobs p.min_num_obs
  let dist := get_distance_cm p
  lqbolLoop ext p dist.1 dist.2 dobs lbol_epochs

/-- Full embedding of `SN.lqbol`, with the same open / `already loaded` /
close scaffolding as `lbol_direct_bh09`. -/
def lqbol (ext : ExtMod) (t : Tables) (p : Params)
    (cache : Option (List PhotObs)) : CallOut :=
  match noneCheckTruthy cache with
  | .error e => { result := .error e, h5_closed := false, photometry := cache }
  | .ok b =>
    let phot := loadedPhot t cache b
    { result := .ok (lqbol_main ext p t.filters phot), h5_closed := true,
      photometry := some phot }

/-- Modelled from the spec: `calc_Lbol` of the `luminosity` module, which is
not part of `sn.py`.  Per the spec only the colors `B-V`, `V-I`, `B-I` are
supported and any other filter pair "must fail fast with a clear unsupported
color error"; the numerics of a supported pair are kept as the external
parameter `calc_Lbol_core`. -/
def calc_Lbol (ext : ExtMod) (color color_err : Option ℚ) (color_key : String)
    (v_mag v_mag_err : List ℚ) (d derr : ℚ) : Except String (ℚ × ℚ) :=
  if color_key = "BminusV" ∨ color_key = "VminusI" ∨ color_key = "BminusI" then
    .ok (ext.calc_Lbol_core color color_err color_key v_mag v_mag_err d derr)
  else
    .error "UnsupportedColor"

/-- The epoch loop of `lbol_bc_bh09`; an exception from `calc_Lbol` aborts the
loop. -/
def bcLoop (ext : ExtMod) (p : Params) (d derr : ℚ)
    (dereddened_phot : List PhotObs) (filter1 filter2 : String) :
    List ℚ → Except String (List Point)
  | [] => .ok []
  | jd :: rest => do
    let color := get_color dereddened_phot jd filter1 filter2
    let color_err := get_color_uncertainty ext dereddened_phot jd filter1 filter2
    let v_mag := (dereddened_phot.filter fun x =>
      decide (x.jd = jd ∧ x.name = "V")).map (·.magnitude)
    let v_mag_err := (dereddened_phot.filter fun x =>
      decide (x.jd = jd ∧ x.name = "V")).map (·.uncertainty)
    let r ← calc_Lbol ext color color_err (filter1 ++ "minus" ++ filter2)
      v_mag v_mag_err d derr
    let pts ← bcLoop ext p d derr dereddened_phot filter1 filter2 rest
    pure (⟨jd, jd - p.explosion_JD, p.explosion_JD_err, r.1, r.2⟩ :: pts)

/-- Full embedding of `SN.lbol_bc_bh09` (which fetches photometry afresh and
never consults the `self.photometry` cache): the returned value together with
whether `h5file.close()` was reached. -/
def lbol_bc_bh09 (ext : ExtMod) (t : Tables) (p : Params)
    (filter1 filter2 : String) : Except String (List Point) × Bool :=
  let photometry := get_photometry t
  let dereddened_phot := deredden_UBVRI_magnitudes p photometry
  let bc_epochs := get_bc_epochs dereddened_phot filter1 filter2
  let dist := get_distance_cm p
  match bcLoop ext p dist.1 dist.2 dereddened_phot filter1 filter2 bc_epochs with
  | .ok lc => (.ok lc, true)
  | .error e => (.error e, false)

/-- Name of the shortest observed (non-`z`) band at an epoch, in the spec's
sense: the band of minimal wavelength.  Stated from the spec's words, for
comparison with the source's `'U' in names` test. -/
def shortestBand (dobs : List FluxObs) (jd : ℚ) : Option String :=
  (sortWl (nonZAt dobs jd)).head?.map (·.name)

/-- Flux measured at the shortest observed (non-`z`) wavelength of an epoch,
in the spec's sense.  Stated from the spec's words, for comparison with the
source's `shortest_flux = np.amin(fluxes)`. -/
def fluxAtShortestWl (dobs : List FluxObs) (jd : ℚ) : Option ℚ :=
  (sortWl (nonZAt dobs jd)).head?.map (·.flux)

/-- The luminosity, uncertainty, phase and phase-uncertainty relations claimed
for every emitted light-curve point, for flux `f` with uncertainty `fe`. -/
def lumFormulas (ext : ExtMod) (p : Params) (d derr f fe : ℚ) (pt : Point) : Prop :=
  pt.lbol = f * 4 * ext.pi * d ^ 2
  ∧ pt.lbol_err = ext.sqrt ((4 * ext.pi * d ^ 2 * fe) ^ 2 + (8 * ext.pi * f * d * derr) ^ 2)
  ∧ pt.phase = pt.jd - p.explosion_JD
  ∧ pt.phase_err = p.explosion_JD_err

/-- A concrete external-module instantiation used by the concrete evaluations
below: `mag2flux` passes the magnitude through as flux, the reddening factor
is `1`, the trapezoidal integral and IR correction vanish, the blackbody fit
returns temperature `1` and angular radius `1`, the blackbody prediction is
huge (so an observed `U` flux always lies below it), and the two UV policies
return the distinguishable constants `1` (linear) and `2` (blackbody). -/
def extBase : ExtMod where
  pi := 1
  sqrt := fun _ => 0
  zip_photometry := id
  mag2flux := fun m u _ _ => (m, u)
  reddening := fun _ _ => 1
  fqbol_trapezoidal := fun _ _ _ => (0, 0)
  bb_fit_parameters := fun _ _ _ => .ok (1, 1, 0, 0)
  bb_flux_nounits := fun _ _ _ => 1000000
  ir_correction := fun _ _ _ _ _ => (0, 0)
  uv_correction_linear := fun _ _ _ => (1, 0)
  uv_correction_blackbody := fun _ _ _ _ _ => (2, 0)
  calc_Lbol_core := fun _ _ _ _ _ _ _ => (0, 0)

/-- Concrete parameters: explosion epoch 0, no extinction, distance chosen so
that `distance_cm = 1` exactly, and the default `min_num_obs = 4`. -/
def paramsBase : Params where
  explosion_JD := 0
  explosion_JD_err := 0
  Av_gal := 0
  Av_host := 0
  distance_Mpc := 1 / mpc_to_cm
  distance_Mpc_err := 0
  min_num_obs := 4

/-- A concrete filter-reference table; `W` is a near-UV band blueward of `U`. -/
def filtersBase : List FilterRow :=
  [⟨1, "W", 2600, 0⟩, ⟨2, "U", 3660, 0⟩, ⟨3, "B", 4380, 0⟩, ⟨4, "V", 5450, 0⟩,
   ⟨5, "R", 6410, 0⟩, ⟨6, "I", 7980, 0⟩, ⟨7, "z", 8930, 0⟩, ⟨8, "J", 12000, 0⟩]

/-- Photometry for the `C1` counterexample: one epoch (JD 50) observed in
`W`, `U`, `B`, `V`, listed in ascending wavelength order; the `U` flux is the
faintest so the linear UV path fires even though `W` is the shortest band. -/
def photC1 : List PhotObs :=
  [⟨50, "W", 1, 10, 0⟩, ⟨50, "U", 2, 1, 0⟩, ⟨50, "B", 3, 3, 0⟩, ⟨50, "V", 4, 4, 0⟩]

theorem pyMin_eq_none {l : List ℚ} : pyMin l = none ↔ l = [] := by
  cases l <;> simp [pyMin]

theorem pyMin_mem : ∀ {l : List ℚ} {m : ℚ}, pyMin l = some m → m ∈ l
  | [], _, h => by simp [pyMin] at h
  | a :: t, m, h => by
    rcases ht : pyMin t with _ | mt
    · simp [pyMin, ht] at h
      simp [h]
    · simp [pyMin, ht] at h
      rcases min_choice a mt with hc | hc
      · rw [← h, hc]
        simp
      · rw [← h, hc]
        exact List.mem_cons_of_mem a (pyMin_mem ht)

theorem pyMin_le : ∀ {l : List ℚ} {m : ℚ}, pyMin l = some m → ∀ x ∈ l, m ≤ x
  | [], _, _, x, hx => by simp at hx
  | a :: t, m, h, x, hx => by
    rcases ht : pyMin t with _ | mt
    · have : t = [] := pyMin_eq_none.mp ht
      subst this
      simp [pyMin] at h
      simp at hx
      simp [h, hx]
    · simp [pyMin, ht] at h
      rcases List.mem_cons.mp hx with h1 | hxt
      · rw [h1, ← h]
        exact min_le_left _ _
      · exact le_trans (h ▸ min_le_right _ _) (pyMin_le ht x hxt)

theorem pyMin_exists_of_ne_nil {l : List ℚ} (h : l ≠ []) : ∃ m, pyMin l = some m := by
  cases l with
  | nil => exact absurd rfl h
  | cons a t => exact ⟨_, rfl⟩

theorem pyMin_lt_iff {l : List ℚ} {c : ℚ} :
    (∃ m, pyMin l = some m ∧ m < c) ↔ ∃ x ∈ l, x < c := by
  constructor
  · rintro ⟨m, hm, hlt⟩
    exact ⟨m, pyMin_mem hm, hlt⟩
  · rintro ⟨x, hx, hlt⟩
    have hne : l ≠ [] := by rintro rfl; simp at hx
    obtain ⟨m, hm⟩ := pyMin_exists_of_ne_nil hne
    exact ⟨m, hm, lt_of_le_of_lt (pyMin_le hm x hx) hlt⟩

theorem mem_collapse : ∀ (l : List ℚ) (x : ℚ), x ∈ collapse l ↔ x ∈ l
  | [], x => by simp [collapse]
  | [a], x => by simp [collapse]
  | a :: b :: t, x => by
    by_cases h : a = b
    · subst h
      rw [collapse, if_pos rfl, mem_collapse (a :: t) x]
      simp
    · rw [collapse, if_neg h]
      simp [mem_collapse (b :: t) x]

theorem pairwise_lt_collapse :
    ∀ l : List ℚ, l.Pairwise (· ≤ ·) → (collapse l).Pairwise (· < ·)
  | [], _ => by simp [collapse]
  | [a], _ => by simp [collapse]
  | a :: b :: t, hp => by
    have hab : a ≤ b := (List.pairwise_cons.mp hp).1 b (by simp)
    have hbt : (b :: t).Pairwise (· ≤ ·) := (List.pairwise_cons.mp hp).2
    by_cases h : a = b
    · rw [collapse, if_pos h]
      exact pairwise_lt_collapse (b :: t) hbt
    · rw [collapse, if_neg h]
      refine List.pairwise_cons.mpr ⟨?_, pairwise_lt_collapse (b :: t) hbt⟩
      intro x hx
      have hxbt : x ∈ b :: t := (mem_collapse (b :: t) x).mp hx
      have hax : a < b := lt_of_le_of_ne hab h
      rcases List.mem_cons.mp hxbt with rfl | hxt
      · exact hax
      · exact lt_of_lt_of_le hax ((List.pairwise_cons.mp hbt).1 x hxt)

theorem mem_npUnique {l : List ℚ} {x : ℚ} : x ∈ npUnique l ↔ x ∈ l := by
  rw [npUnique, mem_collapse, List.mem_insertionSort]

theorem pairwise_npUnique (l : List ℚ) : (npUnique l).Pairwise (· < ·) :=
  pairwise_lt_collapse _ (List.sorted_insertionSort (· ≤ ·) l)

theorem mem_get_lbol_epochs {dobs : List FluxObs} {m : Nat} {jd : ℚ} :
    jd ∈ get_lbol_epochs dobs m ↔
      jd ∈ dobs.map (·.jd) ∧ m ≤ (dobs.filter fun o => decide (o.jd = jd)).length := by
  rw [get_lbol_epochs, List.mem_filter, mem_npUnique, decide_eq_true_eq]

theorem pairwise_get_lbol_epochs (dobs : List FluxObs) (m : Nat) :
    (get_lbol_epochs dobs m).Pairwise (· < ·) :=
  (pairwise_npUnique _).sublist (List.filter_sublist _)

theorem lqbolLoop_map_jd (ext : ExtMod) (p : Params) (d derr : ℚ)
    (dobs : List FluxObs) :
    ∀ l : List ℚ, (lqbolLoop ext p d derr dobs l).map (·.jd)
      = l.filter fun jd => lqbolKeep dobs jd
  | [] => rfl
  | jd :: rest => by
    rw [lqbolLoop, List.filter_cons]
    by_cases h : lqbolKeep dobs jd
    · simp only [h, if_pos, if_true]
      simp [lqbolPointAt, lqbolLoop_map_jd ext p d derr dobs rest]
    · simp only [h, if_neg, if_false]
      simp [h, lqbolLoop_map_jd ext p d derr dobs rest]

theorem mem_lqbolLoop {ext : ExtMod} {p : Params} {d derr : ℚ}
    {dobs : List FluxObs} {pt : Point} :
    ∀ {l : List ℚ}, pt ∈ lqbolLoop ext p d derr dobs l ↔
      ∃ jd ∈ l, lqbolKeep dobs jd = true ∧ pt = lqbolPointAt ext p d derr dobs jd
  | [] => by simp [lqbolLoop]
  | jd :: rest => by
    rw [lqbolLoop]
    by_cases h : lqbolKeep dobs jd
    · rw [if_pos h]
      simp only [List.mem_append, List.mem_singleton]
      rw [mem_lqbolLoop (l := rest)]
      constructor
      · rintro (rfl | ⟨jd2, h2, hk, rfl⟩)
        · exact ⟨jd, by simp, h, rfl⟩
        · exact ⟨jd2, by simp [h2], hk, rfl⟩
      · rintro ⟨jd2, h2, hk, rfl⟩
        rcases List.mem_cons.mp h2 with rfl | h3
        · exact Or.inl rfl
        · exact Or.inr ⟨jd2, h3, hk, rfl⟩
    · rw [if_neg h, List.nil_append]
      rw [mem_lqbolLoop (l := rest)]
      constructor
      · rintro ⟨jd2, h2, hk, rfl⟩
        exact ⟨jd2, by simp [h2], hk, rfl⟩
      · rintro ⟨jd2, h2, hk, rfl⟩
        rcases List.mem_cons.mp h2 with rfl | h3
        · exact absurd hk (by simpa using h)
        · exact ⟨jd2, h3, hk, rfl⟩

theorem directLoop_isOk (ext : ExtMod) (p : Params) (d derr : ℚ)
    (dobs : List FluxObs) :
    ∀ l : List ℚ, (directLoop ext p d derr dobs l).isOk = true ↔
      ∀ jd ∈ l, (processEpochDirect ext p d derr dobs jd).isOk = true
  | [] => by simp [directLoop, Except.isOk, Except.toBool]
  | jd :: rest => by
    rw [directLoop]
    rcases hpe : processEpochDirect ext p d derr dobs jd with e | pt
    · simp only [Except.bind, bind]
      constructor
      · intro h
        simp [Except.isOk, Except.toBool] at h
      · intro h
        exact absurd (h jd (by simp)) (by simp [hpe, Except.isOk, Except.toBool])
    · simp only [Except.bind, bind]
      rcases hrest : directLoop ext p d derr dobs rest with e2 | pts
      · constructor
        · intro h
          simp [Except.isOk, Except.toBool] at h
        · intro h
          have := (directLoop_isOk ext p d derr dobs rest).mpr
            (fun jd2 h2 => h jd2 (List.mem_cons_of_mem jd h2))
          rw [hrest] at this
          simp [Except.isOk, Except.toBool] at this
      · constructor
        · intro _ jd2 h2
          rcases List.mem_cons.mp h2 with rfl | h3
          · simp [hpe, Except.isOk, Except.toBool]
          · exact (directLoop_isOk ext p d derr dobs rest).mp
              (by simp [hrest, Except.isOk, Except.toBool]) jd2 h3
        · intro _
          simp [Except.isOk, Except.toBool, pure, Except.pure]

theorem directLoop_ok_mem {ext : ExtMod} {p : Params} {d derr : ℚ}
    {dobs : List FluxObs} :
    ∀ {l : List ℚ} {pts : List Point} {pt : Point},
      directLoop ext p d derr dobs l = .ok pts → pt ∈ pts →
      ∃ jd ∈ l, processEpochDirect ext p d derr dobs jd = .ok pt
  | [], pts, pt, h, hm => by
    rw [directLoop] at h
    cases h
    simp at hm
  | jd :: rest, pts, pt, h, hm => by
    rw [directLoop] at h
    rcases hpe : processEpochDirect ext p d derr dobs jd with e | pt1 <;>
      rw [hpe] at h
    · simp [Except.bind, bind] at h
    · rcases hrest : directLoop ext p d derr dobs rest with e2 | pts2 <;>
        simp only [Except.bind, bind, hrest] at h
      · cases h
      · simp only [pure, Except.pure, Except.ok.injEq] at h
        subst h
        rcases List.mem_cons.mp hm with rfl | h3
        · exact ⟨jd, by simp, hpe⟩
        · obtain ⟨jd2, h4, h5⟩ := directLoop_ok_mem hrest h3
          exact ⟨jd2, List.mem_cons_of_mem jd h4, h5⟩

theorem directLoop_error_of {ext : ExtMod} {p : Params} {d derr : ℚ}
    {dobs : List FluxObs} {jd : ℚ} {e : String} :
    ∀ {l : List ℚ}, jd ∈ l → processEpochDirect ext p d derr dobs jd = .error e →
      ∃ e2, directLoop ext p d derr dobs l = .error e2
  | [], hm, _ => by simp at hm
  | jd1 :: rest, hm, he => by
    rw [directLoop]
    rcases hpe : processEpochDirect ext p d derr dobs jd1 with e1 | pt
    · exact ⟨e1, by simp [Except.bind, bind]⟩
    · rcases List.mem_cons.mp hm with rfl | h3
      · rw [hpe] at he
        cases he
      · obtain ⟨e2, h4⟩ := directLoop_error_of h3 he
        exact ⟨e2, by simp [Except.bind, bind, h4]⟩

theorem directWls_length_eq_fls (dobs : List FluxObs) (jd : ℚ) :
    (directFls dobs jd).length = (directWls dobs jd).length := by
  simp [directFls, directWls]

theorem directWls_length_eq_fes (dobs : List FluxObs) (jd : ℚ) :
    (directFes dobs jd).length = (directWls dobs jd).length := by
  simp [directFes, directWls]

theorem processEpochDirect_ok {ext : ExtMod} {p : Params} {d derr : ℚ}
    {dobs : List FluxObs} {jd : ℚ} {pt : Point}
    (h : processEpochDirect ext p d derr dobs jd = .ok pt) :
    pt.jd = jd ∧ ∃ f fe, lumFormulas ext p d derr f fe pt := by
  rw [processEpochDirect] at h
  rcases h1 : ext.bb_fit_parameters (directWls dobs jd) (directFls dobs jd)
      (directFes dobs jd) with e | q
  · rw [h1] at h
    simp [Except.bind, bind] at h
  · rw [h1] at h
    obtain ⟨T, R, Te, Re⟩ := q
    simp only [Except.bind, bind] at h
    rcases h2 : pyMin (directWls dobs jd) with _ | swl <;> rw [h2] at h
    · simp at h
    rcases h3 : pyMin (directFls dobs jd) with _ | sfl <;> rw [h3] at h
    · simp at h
    rcases h4 : pyMin (directFes dobs jd) with _ | sfe <;> rw [h4] at h
    · simp at h
    rcases h5 : pyMax (directWls dobs jd) with _ | lwl <;> rw [h5] at h
    · simp at h
    simp only [pure, Except.pure, Except.ok.injEq] at h
    subst h
    exact ⟨rfl, ⟨_, _, rfl, rfl, rfl, rfl⟩⟩

theorem processEpochDirect_error_of_fit {ext : ExtMod} {p : Params} {d derr : ℚ}
    {dobs : List FluxObs} {jd : ℚ} {e : String}
    (h : ext.bb_fit_parameters (directWls dobs jd) (directFls dobs jd)
      (directFes dobs jd) = .error e) :
    processEpochDirect ext p d derr dobs jd = .error e := by
  rw [processEpochDirect, h]
  rfl

theorem processEpochDirect_isOk_iff (ext : ExtMod) (p : Params) (d derr : ℚ)
    (dobs : List FluxObs) (jd : ℚ) :
    (processEpochDirect ext p d derr dobs jd).isOk = true ↔
      (ext.bb_fit_parameters (directWls dobs jd) (directFls dobs jd)
        (directFes dobs jd)).isOk = true ∧ directWls dobs jd ≠ [] := by
  rw [processEpochDirect]
  rcases h1 : ext.bb_fit_parameters (directWls dobs jd) (directFls dobs jd)
      (directFes dobs jd) with e | q
  · simp [Except.bind, bind, Except.isOk, Except.toBool]
  · obtain ⟨T, R, Te, Re⟩ := q
    simp only [Except.bind, bind]
    by_cases h2 : directWls dobs jd = []
    · have h3 : directFls dobs jd = [] :=
        List.length_eq_zero.mp (by rw [directWls_length_eq_fls, h2]; rfl)
      rw [h2]
      simp [pyMin, Except.isOk, Except.toBool, h2]
    · obtain ⟨swl, h3⟩ := pyMin_exists_of_ne_nil h2
      have h4 : directFls dobs jd ≠ [] := by
        intro h5
        exact h2 (List.length_eq_zero.mp (by rw [← directWls_length_eq_fls, h5]; rfl))
      have h5 : directFes dobs jd ≠ [] := by
        intro h6
        exact h2 (List.length_eq_zero.mp (by rw [← directWls_length_eq_fes, h6]; rfl))
      obtain ⟨sfl, h6⟩ := pyMin_exists_of_ne_nil h4
      obtain ⟨sfe, h7⟩ := pyMin_exists_of_ne_nil h5
      obtain ⟨lwl, h8⟩ : ∃ m, pyMax (directWls dobs jd) = some m := by
        rcases h9 : directWls dobs jd with _ | ⟨a, t⟩
        · exact absurd h9 h2
        · exact ⟨_, rfl⟩
      rw [h3, h6, h7, h8]
      simp [Except.isOk, Except.toBool, pure, Except.pure, h2]

theorem lqbolKeep_iff {dobs : List FluxObs} {jd : ℚ} :
    lqbolKeep dobs jd = true ↔ ∃ o ∈ dobs, o.jd = jd ∧ o.wavelength < 10000 := by
  rw [lqbolKeep]
  have hmem : ∀ x : ℚ, x ∈ lqbolWls dobs jd ↔
      ∃ o ∈ dobs, o.jd = jd ∧ o.wavelength = x := by
    intro x
    simp only [lqbolWls, sortWl, List.mem_map, List.mem_insertionSort, lqAt,
      List.mem_filter, decide_eq_true_eq]
    constructor
    · rintro ⟨o, ⟨ho, hjd⟩, rfl⟩
      exact ⟨o, ho, hjd, rfl⟩
    · rintro ⟨o, ho, hjd, rfl⟩
      exact ⟨o, ⟨ho, hjd⟩, rfl⟩
  rcases h : pyMin (lqbolWls dobs jd) with _ | m
  · simp only [decide_eq_true_eq]
    constructor
    · intro h2
      exact absurd h2 (by simp)
    · rintro ⟨o, ho, hjd, hlt⟩
      have : o.wavelength ∈ lqbolWls dobs jd := (hmem _).mpr ⟨o, ho, hjd, rfl⟩
      rw [pyMin_eq_none.mp h] at this
      simp at this
  · simp only [decide_eq_true_eq]
    constructor
    · intro hlt
      obtain ⟨x, hx, hxlt⟩ := pyMin_lt_iff.mp ⟨m, h, hlt⟩
      obtain ⟨o, ho, hjd, rfl⟩ := (hmem x).mp hx
      exact ⟨o, ho, hjd, hxlt⟩
    · rintro ⟨o, ho, hjd, hlt⟩
      obtain ⟨m2, hm2, hlt2⟩ := pyMin_lt_iff.mpr
        ⟨o.wavelength, (hmem _).mpr ⟨o, ho, hjd, rfl⟩, hlt⟩
      rw [h] at hm2
      cases hm2
      exact hlt2

theorem sortWl_eq_self {l : List FluxObs} (h : l.Pairwise wlLE) : sortWl l = l :=
  List.Sorted.insertionSort_eq h

theorem npFirstIndex_aligned :
    ∀ l : List FluxObs, "U" ∈ l.map (·.name) →
      ∃ o, l.find? (fun x => decide (x.name = "U")) = some o ∧
        (l.map (·.flux)).getD (npFirstIndex "U" (l.map (·.name))) 0 = o.flux ∧
        (l.map (·.wavelength)).getD (npFirstIndex "U" (l.map (·.name))) 0 = o.wavelength
  | [], h => by simp at h
  | a :: t, h => by
    by_cases ha : a.name = "U"
    · refine ⟨a, ?_, ?_, ?_⟩
      · rw [List.find?_cons_of_pos]
        simp [ha]
      · simp [npFirstIndex, ha]
      · simp [npFirstIndex, ha]
    · have ht : "U" ∈ t.map (·.name) := by
        have h0 : "U" = a.name ∨ ∃ b ∈ t, b.name = "U" := by simpa using h
        rcases h0 with h1 | ⟨b, hb, h1⟩
        · exact absurd h1.symm ha
        · exact List.mem_map.mpr ⟨b, hb, h1⟩
      obtain ⟨o, h1, h2, h3⟩ := npFirstIndex_aligned t ht
      refine ⟨o, ?_, ?_, ?_⟩
      · rw [List.find?_cons_of_neg]
        · exact h1
        · simp [ha]
      · simpa [npFirstIndex, ha] using h2
      · simpa [npFirstIndex, ha] using h3

/-- C1 (amended): in `lbol_direct_bh09`, for an epoch whose non-`z`
observations are listed in ascending wavelength order (so that the unsorted
`names` array is aligned with the argsorted flux/wavelength arrays), the
linear UV-extrapolation path is chosen if and only if some observation of the
epoch is in band `U` — whether or not `U` is the shortest observed band — and
the first such `U` observation's flux is strictly below the fitted blackbody
model's predicted flux at its wavelength; otherwise the blackbody integral
path is chosen. -/
theorem c1_uv_decision_amended (ext : ExtMod) (dobs : List FluxObs) (jd T R : ℚ)
    (hs : (nonZAt dobs jd).Pairwise wlLE) :
    uvUsesLinear ext (directNames dobs jd) (directWls dobs jd) (directFls dobs jd) T R
        = true ↔
      ∃ o, (nonZAt dobs jd).find? (fun x => decide (x.name = "U")) = some o ∧
        o.flux < ext.bb_flux_nounits o.wavelength T R := by
  have hsort : sortWl (nonZAt dobs jd) = nonZAt dobs jd := sortWl_eq_self hs
  rw [uvUsesLinear]
  by_cases hU : "U" ∈ directNames dobs jd
  · rw [if_pos hU]
    obtain ⟨o, h1, h2, h3⟩ := npFirstIndex_aligned (nonZAt dobs jd) (by simpa [directNames] using hU)
    have hfl : directFls dobs jd = (nonZAt dobs jd).map (·.flux) := by
      rw [directFls, hsort]
    have hwl : directWls dobs jd = (nonZAt dobs jd).map (·.wavelength) := by
      rw [directWls, hsort]
    simp only [hfl, hwl, directNames, decide_eq_true_eq]
    rw [h2, h3]
    constructor
    · intro hlt
      exact ⟨o, h1, hlt⟩
    · rintro ⟨o2, h4, hlt⟩
      rw [h1] at h4
      cases h4
      exact hlt
  · rw [if_neg hU]
    constructor
    · intro h
      cases h
    · rintro ⟨o, h1, _⟩
      have h2 : o ∈ nonZAt dobs jd := List.mem_of_find?_eq_some h1
      have h3 : o.name = "U" := by simpa using List.find?_some h1
      exact absurd (by
        rw [directNames]
        exact List.mem_map.mpr ⟨o, h2, h3⟩) hU

/-- C1 (counterexample to the claim as stated): a processed epoch whose
shortest observed band is the near-UV band `W`, with `U` also observed and
fainter than the blackbody prediction.  The decision table of the claim
requires the blackbody-integral path (shortest band is not `U`), but the code
takes the linear path, as witnessed by the emitted luminosity
`4 = uv_linear • 4π d²` rather than `8 = uv_blackbody • 4π d²`. -/
theorem c1_uv_decision_counterexample :
    lbol_direct_main extBase paramsBase filtersBase photC1 = .ok [⟨50, 50, 0, 4, 0⟩]
    ∧ shortestBand (pipelineObs extBase paramsBase filtersBase photC1) 50 = some "W"
    ∧ uvUsesLinear extBase
        (directNames (pipelineObs extBase paramsBase filtersBase photC1) 50)
        (directWls (pipelineObs extBase paramsBase filtersBase photC1) 50)
        (directFls (pipelineObs extBase paramsBase filtersBase photC1) 50) 1 1 = true
    ∧ (some "W" : Option String) ≠ some "U" := by
  refine ⟨?_, ?_, ?_, by decide⟩
  · norm_num +decide [lbol_direct_main, pipelineObs, deredden_fluxes,
      convert_magnitudes_to_fluxes, get_lbol_epochs, npUnique, collapse, get_distance_cm,
      mpc_to_cm, directLoop, processEpochDirect, directNames, directWls, directFls,
      directFes, nonZAt, sortWl, wlLE, uvUsesLinear, npFirstIndex, pyMin, pyMax, extBase,
      paramsBase, filtersBase, photC1, bind, Except.bind, pure, Except.pure, List.getD,
      List.filter_cons]
  · norm_num +decide [shortestBand, pipelineObs, deredden_fluxes,
      convert_magnitudes_to_fluxes, nonZAt, sortWl, wlLE, extBase, paramsBase,
      filtersBase, photC1, List.filter_cons]
  · norm_num +decide [pipelineObs, deredden_fluxes, convert_magnitudes_to_fluxes,
      directNames, directWls, directFls, nonZAt, sortWl, wlLE, uvUsesLinear,
      npFirstIndex, extBase, paramsBase, filtersBase, photC1, List.getD,
      List.filter_cons]

/-- A concrete already-dereddened epoch, sorted by wavelength, used to witness
`c1_uv_decision_amended`. -/
def dobsC1W : List FluxObs := [⟨50, "U", 3660, 1, 0⟩, ⟨50, "B", 4380, 3, 0⟩]

/-- C1 (witness): the amended decision rule applied at a concrete
wavelength-sorted epoch. -/
theorem c1_uv_decision_witness :
    uvUsesLinear extBase (directNames dobsC1W 50) (directWls dobsC1W 50)
      (directFls dobsC1W 50) 1 1 = true :=
  (c1_uv_decision_amended extBase dobsC1W 50 1 1 (by decide)).mpr
    ⟨⟨50, "U", 3660, 1, 0⟩, by decide, by decide⟩

theorem lqbol_main_map_jd (ext : ExtMod) (p : Params) (filters : List FilterRow)
    (phot : List PhotObs) :
    (lqbol_main ext p filters phot).map (·.jd)
      = (get_lbol_epochs (pipelineObs ext p filters phot) p.min_num_obs).filter
          fun jd => lqbolKeep (pipelineObs ext p filters phot) jd := by
  simp only [lqbol_main]
  exact lqbolLoop_map_jd ext p _ _ _ _

/-- C2: an epoch contributes a point to the `lqbol()` light curve if and only
if the number of valid flux points at that epoch is at least `min_num_obs`
(default 4) and at least one observed wavelength at that epoch lies below
10000 Å; the emitted points are ordered by strictly ascending unique epoch;
and a fresh call (photometry not yet cached) returns exactly this light curve
built from the loaded tables. -/
theorem c2_lqbol_epoch_selection (ext : ExtMod) (p : Params)
    (filters : List FilterRow) (phot : List PhotObs) (h : 1 ≤ p.min_num_obs)
    (jd : ℚ) :
    ((∃ pt ∈ lqbol_main ext p filters phot, pt.jd = jd) ↔
      p.min_num_obs ≤
          ((pipelineObs ext p filters phot).filter fun o => decide (o.jd = jd)).length
        ∧ ∃ o ∈ pipelineObs ext p filters phot, o.jd = jd ∧ o.wavelength < 10000)
    ∧ ((lqbol_main ext p filters phot).map (·.jd)).Pairwise (· < ·)
    ∧ ∀ t : Tables,
        (lqbol ext t p none).result = .ok (lqbol_main ext p t.filters (get_photometry t)) := by
  have key : (∃ pt ∈ lqbol_main ext p filters phot, pt.jd = jd) ↔
      jd ∈ get_lbol_epochs (pipelineObs ext p filters phot) p.min_num_obs
        ∧ lqbolKeep (pipelineObs ext p filters phot) jd = true := by
    constructor
    · rintro ⟨pt, hm, rfl⟩
      have h2 : pt.jd ∈ (lqbol_main ext p filters phot).map (·.jd) :=
        List.mem_map_of_mem _ hm
      rw [lqbol_main_map_jd, List.mem_filter] at h2
      exact ⟨h2.1, h2.2⟩
    · rintro ⟨he, hk⟩
      have h2 : jd ∈ (lqbol_main ext p filters phot).map (·.jd) := by
        rw [lqbol_main_map_jd, List.mem_filter]
        exact ⟨he, hk⟩
      obtain ⟨pt, hm, hjd⟩ := List.mem_map.mp h2
      exact ⟨pt, hm, hjd⟩
  refine ⟨?_, ?_, fun t => rfl⟩
  · rw [key, mem_get_lbol_epochs, lqbolKeep_iff]
    constructor
    · rintro ⟨⟨_, hcount⟩, hex⟩
      exact ⟨hcount, hex⟩
    · rintro ⟨hcount, hex⟩
      have hne : jd ∈ (pipelineObs ext p filters phot).map (·.jd) := by
        have hlen : 1 ≤
            ((pipelineObs ext p filters phot).filter fun o => decide (o.jd = jd)).length :=
          le_trans h hcount
        rcases hf : (pipelineObs ext p filters phot).filter
            (fun o => decide (o.jd = jd)) with _ | ⟨o, t2⟩
        · rw [hf] at hlen
          simp at hlen
        · have ho : o ∈ (pipelineObs ext p filters phot).filter
              (fun o => decide (o.jd = jd)) := by
            rw [hf]
            simp
          have h3 := List.mem_filter.mp ho
          exact List.mem_map.mpr ⟨o, h3.1, by simpa using h3.2⟩
      exact ⟨⟨hne, hcount⟩, hex⟩
  · rw [lqbol_main_map_jd]
    exact (pairwise_get_lbol_epochs _ _).sublist (List.filter_sublist _)

/-- C2 (witness): the selection rule applied at a concrete epoch with four
valid flux points, one of which lies below 10000 Å. -/
theorem c2_lqbol_epoch_selection_witness :
    ∃ pt ∈ lqbol_main extBase paramsBase filtersBase photC1, pt.jd = 50 :=
  (c2_lqbol_epoch_selection extBase paramsBase filtersBase photC1 (by decide) 50).1.mpr
    ⟨by
      norm_num +decide [pipelineObs, deredden_fluxes, convert_magnitudes_to_fluxes,
        extBase, paramsBase, filtersBase, photC1, List.filter_cons],
     ⟨50, "W", 2600, 10, 0⟩,
     by
      norm_num +decide [pipelineObs, deredden_fluxes, convert_magnitudes_to_fluxes,
        extBase, paramsBase, filtersBase, photC1],
     by decide, by decide⟩

/-- C3 (amended): in `lbol_direct_bh09` there is no per-epoch exception
handling: if the blackbody fit fails for any selected epoch, the exception
propagates and the whole call aborts with an error — no light-curve points
are returned for the other passing epochs. -/
theorem c3_fit_failure_aborts (ext : ExtMod) (p : Params)
    (filters : List FilterRow) (phot : List PhotObs) (jd : ℚ) (e : String)
    (h1 : jd ∈ get_lbol_epochs (pipelineObs ext p filters phot) p.min_num_obs)
    (h2 : ext.bb_fit_parameters (directWls (pipelineObs ext p filters phot) jd)
      (directFls (pipelineObs ext p filters phot) jd)
      (directFes (pipelineObs ext p filters phot) jd) = .error e) :
    ∃ e2, lbol_direct_main ext p filters phot = .error e2 := by
  simp only [lbol_direct_main]
  exact directLoop_error_of h1 (processEpochDirect_error_of_fit h2)

/-- External modules for the `C3` counterexample: the blackbody fit fails
exactly on epochs containing the `U` wavelength 3660 Å. -/
def ext3 : ExtMod :=
  { extBase with
    bb_fit_parameters := fun wls _ _ =>
      if (3660 : ℚ) ∈ wls then .error "fit did not converge" else .ok (1, 1, 0, 0) }

/-- Photometry for the `C3` counterexample: epoch 10 (whose fit fails) and
epoch 20 (whose fit succeeds), each with four observations. -/
def photC3 : List PhotObs :=
  [⟨10, "U", 2, 1, 0⟩, ⟨10, "B", 3, 2, 0⟩, ⟨10, "V", 4, 3, 0⟩, ⟨10, "R", 5, 4, 0⟩,
   ⟨20, "B", 3, 2, 0⟩, ⟨20, "V", 4, 3, 0⟩, ⟨20, "R", 5, 4, 0⟩, ⟨20, "I", 6, 5, 0⟩]

/-- C3 (counterexample to the claim as stated): the fit fails on epoch 10 and
the whole call returns an error, although epoch 20 passes selection and its
own processing succeeds — no point for epoch 20 is emitted. -/
theorem c3_fit_failure_counterexample :
    lbol_direct_main ext3 paramsBase filtersBase photC3 = .error "fit did not converge"
    ∧ (20 : ℚ) ∈ get_lbol_epochs (pipelineObs ext3 paramsBase filtersBase photC3)
        paramsBase.min_num_obs
    ∧ (processEpochDirect ext3 paramsBase 1 0
        (pipelineObs ext3 paramsBase filtersBase photC3) 20).isOk = true := by
  refine ⟨?_, ?_, ?_⟩
  · norm_num +decide [lbol_direct_main, pipelineObs, deredden_fluxes,
      convert_magnitudes_to_fluxes, get_lbol_epochs, npUnique, collapse, get_distance_cm,
      mpc_to_cm, directLoop, processEpochDirect, directNames, directWls, directFls,
      directFes, nonZAt, sortWl, wlLE, uvUsesLinear, npFirstIndex, pyMin, pyMax, ext3,
      extBase, paramsBase, filtersBase, photC3, bind, Except.bind, pure, Except.pure,
      List.getD, List.filter_cons]
  · norm_num +decide [get_lbol_epochs, npUnique, collapse, pipelineObs, deredden_fluxes,
      convert_magnitudes_to_fluxes, ext3, extBase, paramsBase, filtersBase, photC3,
      List.filter_cons]
  · norm_num +decide [processEpochDirect, pipelineObs, deredden_fluxes,
      convert_magnitudes_to_fluxes, directNames, directWls, directFls, directFes, nonZAt,
      sortWl, wlLE, uvUsesLinear, npFirstIndex, pyMin, pyMax, ext3, extBase, paramsBase,
      filtersBase, photC3, bind, Except.bind, pure, Except.pure, List.getD,
      List.filter_cons, Except.isOk, Except.toBool]

/-- C3 (witness): the amended abort behaviour at the concrete failing input. -/
theorem c3_fit_failure_witness :
    ∃ e2, lbol_direct_main ext3 paramsBase filtersBase photC3 = .error e2 :=
  c3_fit_failure_aborts ext3 paramsBase filtersBase photC3 10 "fit did not converge"
    (by
      norm_num +decide [get_lbol_epochs, npUnique, collapse, pipelineObs,
        deredden_fluxes, convert_magnitudes_to_fluxes, ext3, extBase, paramsBase,
        filtersBase, photC3, List.filter_cons])
    (by
      norm_num +decide [pipelineObs, deredden_fluxes, convert_magnitudes_to_fluxes,
        directWls, directFls, directFes, nonZAt, sortWl, wlLE, ext3, extBase, paramsBase,
        filtersBase, photC3, List.filter_cons])

/-- C9 (amended): each top-level call opens the HDF5 file once, but
`h5file.close()` sits on the normal path only: `lbol_direct_bh09` reaches it
if and only if the `already loaded` check does not raise and every selected
epoch's processing (in particular its blackbody fit) succeeds; a fresh
`lqbol()` call always closes the file; and an epoch's processing succeeds
exactly when its blackbody fit returns and its wavelength array is
non-empty. -/
theorem c9_close_on_normal_path_only (ext : ExtMod) (t : Tables) (p : Params)
    (cache : Option (List PhotObs)) :
    ((lbol_direct_bh09 ext t p cache).h5_closed = true ↔
      ∃ b, noneCheckTruthy cache = .ok b ∧
        ∀ jd ∈ get_lbol_epochs (pipelineObs ext p t.filters (loadedPhot t cache b))
            p.min_num_obs,
          (processEpochDirect ext p (get_distance_cm p).1 (get_distance_cm p).2
            (pipelineObs ext p t.filters (loadedPhot t cache b)) jd).isOk = true)
    ∧ (lqbol ext t p none).h5_closed = true
    ∧ ∀ d derr dobs jd2,
        (processEpochDirect ext p d derr dobs jd2).isOk = true ↔
          ((ext.bb_fit_parameters (directWls dobs jd2) (directFls dobs jd2)
            (directFes dobs jd2)).isOk = true ∧ directWls dobs jd2 ≠ []) := by
  refine ⟨?_, rfl, fun d derr dobs jd2 => processEpochDirect_isOk_iff ext p d derr dobs jd2⟩
  rcases hc : noneCheckTruthy cache with e | b
  · simp [lbol_direct_bh09, hc]
  · have hmain := directLoop_isOk ext p (get_distance_cm p).1 (get_distance_cm p).2
      (pipelineObs ext p t.filters (loadedPhot t cache b))
      (get_lbol_epochs (pipelineObs ext p t.filters (loadedPhot t cache b)) p.min_num_obs)
    rw [lbol_direct_bh09, hc]
    rcases hm : lbol_direct_main ext p t.filters (loadedPhot t cache b) with e2 | lc
    · simp only [hm]
      simp only [lbol_direct_main] at hm
      rw [hm] at hmain
      constructor
      · intro hfalse
        cases hfalse
      · rintro ⟨b2, hb2, hall⟩
        cases hb2
        have := hmain.mpr hall
        simp [Except.isOk, Except.toBool] at this
    · simp only [hm]
      simp only [lbol_direct_main] at hm
      rw [hm] at hmain
      constructor
      · intro _
        exact ⟨b, rfl, hmain.mp (by simp [Except.isOk, Except.toBool])⟩
      · intro _
        trivial

/-- External modules for the `C9` counterexample: a blackbody fit that always
fails numerically. -/
def ext9 : ExtMod :=
  { extBase with bb_fit_parameters := fun _ _ _ => .error "no convergence" }

/-- Tables for the `C9` counterexample: one epoch with four `B`,`V`,`R`,`I`
photometry rows. -/
def t9 : Tables :=
  { filters := filtersBase,
    phot := [⟨30, 3, 1, 0⟩, ⟨30, 4, 2, 0⟩, ⟨30, 5, 3, 0⟩, ⟨30, 6, 4, 0⟩] }

/-- C9 (counterexample to the claim as stated): when the blackbody fit raises,
`lbol_direct_bh09` exits without reaching `h5file.close()` — the file is not
closed on this exit path. -/
theorem c9_close_counterexample :
    (lbol_direct_bh09 ext9 t9 paramsBase none).h5_closed = false
    ∧ (lbol_direct_bh09 ext9 t9 paramsBase none).result = .error "no convergence" := by
  constructor <;>
    norm_num +decide [lbol_direct_bh09, noneCheckTruthy, loadedPhot, get_photometry,
      lbol_direct_main, pipelineObs, deredden_fluxes, convert_magnitudes_to_fluxes,
      get_lbol_epochs, npUnique, collapse, get_distance_cm, mpc_to_cm, directLoop,
      processEpochDirect, directNames, directWls, directFls, directFes, nonZAt, sortWl,
      wlLE, uvUsesLinear, npFirstIndex, pyMin, pyMax, ext9, extBase, paramsBase,
      filtersBase, t9, bind, Except.bind, pure, Except.pure, List.getD, List.filter_cons]

/-- C4 (amended): calling `lbol_bc_bh09` with a filter pair outside
{B-V, V-I, B-I} never produces a light-curve point, but it fails with the
unsupported-color error only when at least one epoch carries both filters
(the error is raised inside the per-epoch loop); when no epoch carries both
filters the call returns an empty light curve without any error.  The
rejection itself lives in the external `luminosity.calc_Lbol`, modelled here
from the spec. -/
theorem c4_unsupported_color (ext : ExtMod) (t : Tables) (p : Params)
    (f1 f2 : String)
    (h : ¬(f1 ++ "minus" ++ f2 = "BminusV" ∨ f1 ++ "minus" ++ f2 = "VminusI"
        ∨ f1 ++ "minus" ++ f2 = "BminusI")) :
    (∀ lc, (lbol_bc_bh09 ext t p f1 f2).1 = .ok lc → lc = [])
    ∧ (get_bc_epochs (deredden_UBVRI_magnitudes p (get_photometry t)) f1 f2 ≠ [] →
        ∃ e, (lbol_bc_bh09 ext t p f1 f2).1 = .error e) := by
  rcases he : get_bc_epochs (deredden_UBVRI_magnitudes p (get_photometry t)) f1 f2
    with _ | ⟨jd, rest⟩
  · constructor
    · intro lc hlc
      simp only [lbol_bc_bh09, he, bcLoop, Except.ok.injEq] at hlc
      exact hlc.symm
    · intro hne
      exact absurd rfl hne
  · have herr : bcLoop ext p (get_distance_cm p).1 (get_distance_cm p).2
        (deredden_UBVRI_magnitudes p (get_photometry t)) f1 f2 (jd :: rest)
          = .error "UnsupportedColor" := by
      rw [bcLoop]
      simp only [calc_Lbol, if_neg h, Except.bind, bind]
    constructor
    · intro lc hlc
      simp only [lbol_bc_bh09, he, herr] at hlc
      cases hlc
    · intro _
      refine ⟨"UnsupportedColor", ?_⟩
      simp only [lbol_bc_bh09, he, herr]

/-- Tables for the `C4` counterexample: photometry in `B` and `V` only, so no
epoch carries both `R` and `I`. -/
def t4 : Tables :=
  { filters := filtersBase, phot := [⟨40, 3, 5, 0⟩, ⟨40, 4, 6, 0⟩] }

/-- Tables for the `C4` witness: one epoch carrying both `R` and `I`. -/
def t4b : Tables :=
  { filters := filtersBase, phot := [⟨40, 5, 5, 0⟩, ⟨40, 6, 6, 0⟩] }

/-- C4 (counterexample to the claim as stated): with the unsupported pair
`(R, I)` but no epoch carrying both filters, the call returns successfully
with an empty light curve instead of failing with an unsupported-color
error. -/
theorem c4_unsupported_color_counterexample :
    (lbol_bc_bh09 extBase t4 paramsBase "R" "I").1 = .ok []
    ∧ ¬("R" ++ "minus" ++ "I" = "BminusV" ∨ "R" ++ "minus" ++ "I" = "VminusI"
        ∨ "R" ++ "minus" ++ "I" = "BminusI") := by
  refine ⟨?_, by decide⟩
  norm_num +decide [lbol_bc_bh09, get_photometry, deredden_UBVRI_magnitudes, ccm89_corr,
    get_bc_epochs, npUnique, collapse, get_distance_cm, mpc_to_cm, bcLoop, extBase,
    paramsBase, filtersBase, t4, List.filter_cons]

/-- C4 (witness): the amended behaviour at a concrete input with an epoch
carrying both `R` and `I`: the call fails with the unsupported-color error. -/
theorem c4_unsupported_color_witness :
    ∃ e, (lbol_bc_bh09 extBase t4b paramsBase "R" "I").1 = .error e :=
  (c4_unsupported_color extBase t4b paramsBase "R" "I" (by decide)).2
    (by
      norm_num +decide [get_photometry, deredden_UBVRI_magnitudes, ccm89_corr,
        get_bc_epochs, npUnique, collapse, extBase, paramsBase, filtersBase, t4b,
        List.filter_cons])

/-- C5: every point emitted by `lqbol` carries
`lbol = fqbol · 4π · distance_cm²` with
`lbol_err = sqrt((4π d² fqbol_err)² + (8π fqbol d d_err)²)`,
`phase = jd − explosion_JD` and `phase_err = explosion_JD_err` (the same
constant for every point); every point emitted by `lbol_direct_bh09`
satisfies the same four relations for its epoch's total flux and flux
uncertainty. -/
theorem c5_luminosity_assembly (ext : ExtMod) (p : Params)
    (filters : List FilterRow) (phot : List PhotObs) :
    (∀ pt ∈ lqbol_main ext p filters phot,
      lumFormulas ext p (get_distance_cm p).1 (get_distance_cm p).2
        (ext.fqbol_trapezoidal (lqbolWls (pipelineObs ext p filters phot) pt.jd)
          (lqbolFls (pipelineObs ext p filters phot) pt.jd)
          (lqbolFes (pipelineObs ext p filters phot) pt.jd)).1
        (ext.fqbol_trapezoidal (lqbolWls (pipelineObs ext p filters phot) pt.jd)
          (lqbolFls (pipelineObs ext p filters phot) pt.jd)
          (lqbolFes (pipelineObs ext p filters phot) pt.jd)).2 pt)
    ∧ (∀ lc, lbol_direct_main ext p filters phot = .ok lc →
        ∀ pt ∈ lc, ∃ f fe,
          lumFormulas ext p (get_distance_cm p).1 (get_distance_cm p).2 f fe pt) := by
  constructor
  · intro pt hm
    simp only [lqbol_main] at hm
    obtain ⟨jd, _, _, rfl⟩ := mem_lqbolLoop.mp hm
    exact ⟨rfl, rfl, rfl, rfl⟩
  · intro lc hlc pt hpt
    simp only [lbol_direct_main] at hlc
    obtain ⟨jd, _, hok⟩ := directLoop_ok_mem hlc hpt
    exact (processEpochDirect_ok hok).2

/-- C5 (witness): the luminosity-assembly relations at the concrete point
emitted by `lqbol` for the epoch JD 50. -/
theorem c5_luminosity_assembly_witness :
    lumFormulas extBase paramsBase (get_distance_cm paramsBase).1
      (get_distance_cm paramsBase).2
      (extBase.fqbol_trapezoidal
        (lqbolWls (pipelineObs extBase paramsBase filtersBase photC1) 50)
        (lqbolFls (pipelineObs extBase paramsBase filtersBase photC1) 50)
        (lqbolFes (pipelineObs extBase paramsBase filtersBase photC1) 50)).1
      (extBase.fqbol_trapezoidal
        (lqbolWls (pipelineObs extBase paramsBase filtersBase photC1) 50)
        (lqbolFls (pipelineObs extBase paramsBase filtersBase photC1) 50)
        (lqbolFes (pipelineObs extBase paramsBase filtersBase photC1) 50)).2
      ⟨50, 50, 0, 0, 0⟩ :=
  (c5_luminosity_assembly extBase paramsBase filtersBase photC1).1 ⟨50, 50, 0, 0, 0⟩
    (by
      norm_num +decide [lqbol_main, lqbolLoop, lqbolKeep, lqbolPointAt, lqbolWls,
        lqbolFls, lqbolFes, lqAt, pipelineObs, deredden_fluxes,
        convert_magnitudes_to_fluxes, get_lbol_epochs, npUnique, collapse,
        get_distance_cm, mpc_to_cm, sortWl, wlLE, pyMin, extBase, paramsBase,
        filtersBase, photC1, List.filter_cons])

/-- C6: `deredden_UBVRI_magnitudes` subtracts `coefficient · (Av_gal + Av_host)`
from the magnitude of every observation in bands U, B, V, R, I with the CCM89
coefficients U:1.569, B:1.337, V:1.0, R:0.751, I:0.479, and leaves every
observation in any other band unchanged (all other fields untouched). -/
theorem c6_deredden_UBVRI (p : Params) (photometry : List PhotObs) :
    deredden_UBVRI_magnitudes p photometry = photometry.map fun obs =>
      if obs.name = "U" then
        { obs with magnitude := obs.magnitude - 1.569 * (p.Av_gal + p.Av_host) }
      else if obs.name = "B" then
        { obs with magnitude := obs.magnitude - 1.337 * (p.Av_gal + p.Av_host) }
      else if obs.name = "V" then
        { obs with magnitude := obs.magnitude - 1.0 * (p.Av_gal + p.Av_host) }
      else if obs.name = "R" then
        { obs with magnitude := obs.magnitude - 0.751 * (p.Av_gal + p.Av_host) }
      else if obs.name = "I" then
        { obs with magnitude := obs.magnitude - 0.479 * (p.Av_gal + p.Av_host) }
      else obs := by
  unfold deredden_UBVRI_magnitudes
  congr 1
  funext obs
  simp only [ccm89_corr]
  split_ifs <;> rfl

/-- C10: in `lbol_direct_bh09`, an epoch is selected iff it occurs in the
data and its total observation count — `z`-band observations included —
reaches the threshold, while the arrays handed to the trapezoidal integrator,
the blackbody fitter and the UV/IR corrections contain exactly the non-`z`
observations of the epoch (so `z` points count toward selection but are
excluded from the computation). -/
theorem c10_z_band_counting (dobs : List FluxObs) (m : Nat) (jd : ℚ) :
    (jd ∈ get_lbol_epochs dobs m ↔
      jd ∈ dobs.map (·.jd)
        ∧ m ≤ (dobs.filter fun o => decide (o.jd = jd)).length)
    ∧ (∀ n ∈ directNames dobs jd, n ≠ "z")
    ∧ (directWls dobs jd).length
        = (dobs.filter fun o => decide (o.jd = jd ∧ ¬o.name = "z")).length := by
  refine ⟨mem_get_lbol_epochs, ?_, ?_⟩
  · intro n hn
    simp only [directNames, List.mem_map, nonZAt, List.mem_filter,
      decide_eq_true_eq] at hn
    obtain ⟨o, ⟨_, _, hz⟩, rfl⟩ := hn
    exact hz
  · rw [directWls, List.length_map, sortWl, List.length_insertionSort, nonZAt]

/-- Tables for `C7`: a photometry table that joins to two rows, so the cached
`self.photometry` array has two elements. -/
def t7 : Tables :=
  { filters := filtersBase, phot := [⟨50, 3, 10, 0⟩, ⟨50, 4, 11, 0⟩] }

/-- C7: the `already loaded` check `self.photometry == None` is an elementwise
numpy comparison, so a second `lqbol()` call on the same instance does not
reuse the cache: with two or more cached photometry rows the truth test
raises `ValueError` and the second call fails instead of returning the first
call's light curve. -/
theorem c7_memoization_second_call_crashes :
    (lqbol extBase t7 paramsBase none).result.isOk = true
    ∧ (lqbol extBase t7 paramsBase none).photometry
        = some [⟨50, "B", 3, 10, 0⟩, ⟨50, "V", 4, 11, 0⟩]
    ∧ (lqbol extBase t7 paramsBase
          ((lqbol extBase t7 paramsBase none).photometry)).result
        = .error "ValueError: The truth value of an array with more than one element is ambiguous." :=
  ⟨rfl, rfl, rfl⟩

/-- External modules for `C8`: the linear UV correction echoes back the flux
argument it received, making that argument observable in the output. -/
def ext8 : ExtMod :=
  { extBase with uv_correction_linear := fun _ f fe => (f, fe) }

/-- Photometry for `C8`: one epoch where the flux at the shortest wavelength
(`U`, 5) is not the minimum flux over the bands (`B`, 2). -/
def photC8 : List PhotObs :=
  [⟨60, "U", 2, 5, 0⟩, ⟨60, "B", 3, 2, 0⟩, ⟨60, "V", 4, 3, 0⟩, ⟨60, "R", 5, 4, 0⟩]

/-- C8: on the linear UV path the code passes `shortest_flux = np.amin(fluxes)`
— the minimum flux over all bands — rather than the flux measured at the
shortest observed wavelength: here the flux at the shortest wavelength is 5,
`np.amin(fluxes)` is 2, and the emitted luminosity `8 = (0 + 0 + 2) · 4π d²`
shows the linear correction received 2. -/
theorem c8_shortest_flux_is_amin :
    lbol_direct_main ext8 paramsBase filtersBase photC8 = .ok [⟨60, 60, 0, 8, 0⟩]
    ∧ fluxAtShortestWl (pipelineObs ext8 paramsBase filtersBase photC8) 60 = some 5
    ∧ pyMin (directFls (pipelineObs ext8 paramsBase filtersBase photC8) 60) = some 2
    ∧ uvUsesLinear ext8
        (directNames (pipelineObs ext8 paramsBase filtersBase photC8) 60)
        (directWls (pipelineObs ext8 paramsBase filtersBase photC8) 60)
        (directFls (pipelineObs ext8 paramsBase filtersBase photC8) 60) 1 1 = true := by
  refine ⟨?_, ?_, ?_, ?_⟩
  · norm_num +decide [lbol_direct_main, pipelineObs, deredden_fluxes,
      convert_magnitudes_to_fluxes, get_lbol_epochs, npUnique, collapse, get_distance_cm,
      mpc_to_cm, directLoop, processEpochDirect, directNames, directWls, directFls,
      directFes, nonZAt, sortWl, wlLE, uvUsesLinear, npFirstIndex, pyMin, pyMax, ext8,
      extBase, paramsBase, filtersBase, photC8, bind, Except.bind, pure, Except.pure,
      List.getD, List.filter_cons]
  · norm_num +decide [fluxAtShortestWl, pipelineObs, deredden_fluxes,
      convert_magnitudes_to_fluxes, nonZAt, sortWl, wlLE, ext8, extBase, paramsBase,
      filtersBase, photC8, List.filter_cons]
  · norm_num +decide [directFls, pipelineObs, deredden_fluxes,
      convert_magnitudes_to_fluxes, nonZAt, sortWl, wlLE, pyMin, ext8, extBase,
      paramsBase, filtersBase, photC8, List.filter_cons]
  · norm_num +decide [pipelineObs, deredden_fluxes, convert_magnitudes_to_fluxes,
      directNames, directWls, directFls, nonZAt, sortWl, wlLE, uvUsesLinear,
      npFirstIndex, ext8, extBase, paramsBase, filtersBase, photC8, List.getD,
      List.filter_cons]
